import Mathlib

set_option maxHeartbeats 1000000
set_option maxRecDepth 40000

/-!
Shallow embedding of the traffic-aggregation core of the bicycle-share
station map, translated from `src/map.js` (bucket-table variant) and
`src/unnamed/part_000` (linear-scan variant).

Conventions of the embedding:
* JS `Date` values are represented by their local wall-clock hour and
  minute fields, the only parts the code reads (`getHours`, `getMinutes`).
* JS arrays become `List`; `Array.prototype.slice(a, b)` becomes
  `(l.drop a).take (b - a)`, `slice(a)` becomes `l.drop a`, and
  `Array.prototype.flat()` becomes `List.flatten`.
* `d3.rollup(v, g => g.length, key)` builds a map from key to group size in
  first-encounter order; it is modelled by an association list built with
  `incr`, and `map.get(id) ?? 0` by `getOrZero`.
* Numbers that the code only ever uses as small non-negative integers are
  `Nat`; the time filter is `Int` because `-1` is the sentinel; scale
  endpoints and ratios are `ℚ` (exact at every value the claims touch).
-/

/-- A timestamp, reduced to the fields the code reads: JS
`Date.prototype.getHours` and `Date.prototype.getMinutes` (local wall clock). -/
structure DateTime where
  hours : Nat
  minutes : Nat
deriving DecidableEq

/-- A `Date` obtained from the JS `Date` parser always satisfies
`getHours() < 24` and `getMinutes() < 60`. -/
def DateTime.valid (d : DateTime) : Prop := d.hours < 24 ∧ d.minutes < 60

instance (d : DateTime) : Decidable d.valid :=
  inferInstanceAs (Decidable (d.hours < 24 ∧ d.minutes < 60))

/-- A trip record as produced by the CSV row conversion: station ids plus
parsed `started_at` / `ended_at` timestamps. -/
structure Trip where
  start_station_id : String
  end_station_id : String
  started_at : DateTime
  ended_at : DateTime
deriving DecidableEq

/-- Both timestamps of the trip are well-formed `Date`s. -/
def Trip.valid (t : Trip) : Prop := t.started_at.valid ∧ t.ended_at.valid

instance (t : Trip) : Decidable t.valid :=
  inferInstanceAs (Decidable (t.started_at.valid ∧ t.ended_at.valid))

/-- A station record; `short_name` is the join key against trip station ids,
`arrivals` / `departures` / `totalTraffic` are the derived traffic fields
(absent fields of a freshly loaded JS station are taken as `0`). -/
structure Station where
  short_name : String
  lon : Int
  lat : Int
  arrivals : Nat
  departures : Nat
  totalTraffic : Nat
deriving DecidableEq

/-- Embeds `function minutesSinceMidnight(date) { return date.getHours() * 60 +
date.getMinutes(); }` (identical in both variants). -/
def minutesSinceMidnight (date : DateTime) : Nat :=
  date.hours * 60 + date.minutes

/-- Embeds `let departuresByMinute = Array.from({ length: 1440 }, () => [])`
(and likewise `arrivalsByMinute`): 1440 empty buckets. -/
def emptyTable : List (List Trip) := List.replicate 1440 []

/-- Embeds `tripsByMinute[i].push(trip)`: append `t` to the `i`-th bucket, leaving
the table unchanged when `i` is out of range (which never happens for valid
timestamps, since `minutesSinceMidnight` is then `< 1440`). -/
def setAppend : List (List Trip) → Nat → Trip → List (List Trip)
  | [], _, _ => []
  | b :: bs, 0, t => (b ++ [t]) :: bs
  | b :: bs, Nat.succ i, t => b :: setAppend bs i t

/-- The bucketing loop of the `d3.csv` row converter: each trip in order is
pushed into the bucket selected by `idx`. -/
def bucketFold (idx : Trip → Nat) (trips : List Trip) (tab : List (List Trip)) :
    List (List Trip) :=
  trips.foldl (fun tb t => setAppend tb (idx t) t) tab

/-- The effect of `departuresByMinute[startedMinutes].push(trip)` applied to every loaded
trip, starting from the empty table. -/
def bucketDepartures (trips : List Trip) : List (List Trip) :=
  bucketFold (fun t => minutesSinceMidnight t.started_at) trips emptyTable

/-- The effect of `arrivalsByMinute[endedMinutes].push(trip)` applied to every loaded
trip, starting from the empty table. -/
def bucketArrivals (trips : List Trip) : List (List Trip) :=
  bucketFold (fun t => minutesSinceMidnight t.ended_at) trips emptyTable

/-- Total number of trips stored in a bucket table
(`sum(len(bucket) for bucket in table)`). -/
def sumLens (tab : List (List Trip)) : Nat := (tab.map List.length).sum

/-- Embeds `filterByMinute(tripsByMinute, minute)` of `src/map.js`: return all trips
(flattened buckets) for the sentinel `-1`; otherwise slice the circular
window `[minMinute, maxMinute)` out of the bucket table and flatten it. -/
def filterByMinute (tripsByMinute : List (List Trip)) (minute : Int) : List Trip :=
  if minute = -1 then
    tripsByMinute.flatten
  else
    let minMinute := ((minute - 60 + 1440) % 1440).toNat
    let maxMinute := ((minute + 60) % 1440).toNat
    if minMinute > maxMinute then
      ((tripsByMinute.drop minMinute) ++ (tripsByMinute.take maxMinute)).flatten
    else
      ((tripsByMinute.drop minMinute).take (maxMinute - minMinute)).flatten

/-- Embeds `filterTripsByTime(allTrips, minute)` of `src/unnamed/part_000`: keep a trip
when its start minute or its end minute lies in the inclusive, non-wrapping
interval `[minute - 60, minute + 60]`. -/
def filterTripsByTime (allTrips : List Trip) (minute : Int) : List Trip :=
  if minute = -1 then allTrips
  else
    allTrips.filter (fun trip =>
      let startM : Int := minutesSinceMidnight trip.started_at
      let endM : Int := minutesSinceMidnight trip.ended_at
      (minute - 60 ≤ startM ∧ startM ≤ minute + 60) ∨
        (minute - 60 ≤ endM ∧ endM ≤ minute + 60))

/-- One step of `d3.rollup` with reducer `v => v.length`: bump the count of
key `k`, or append a fresh entry `(k, 1)` on first encounter. -/
def incr : List (String × Nat) → String → List (String × Nat)
  | [], k => [(k, 1)]
  | (k0, n) :: rest, k =>
      if k0 = k then (k0, n + 1) :: rest else (k0, n) :: incr rest k

/-- Embeds `d3.rollup(trips, v => v.length, key)`: per-key group sizes, keys in
first-encounter order. -/
def rollupLen (key : Trip → String) (trips : List Trip) : List (String × Nat) :=
  trips.foldl (fun m t => incr m (key t)) []

/-- Embeds `rollupResult.get(id) ?? 0`: the stored count of `id`, or `0` when the
key is absent. -/
def getOrZero : List (String × Nat) → String → Nat
  | [], _ => 0
  | (k0, n) :: rest, k => if k0 = k then n else getOrZero rest k

/-- Embeds `computeStationTraffic(stations, currentTimeFilter)` of `src/map.js`:
roll up the time-filtered departure and arrival buckets by station id, then
write `arrivals`, `departures` and `totalTraffic` onto every station. -/
def computeStationTrafficMap (departuresByMinute arrivalsByMinute : List (List Trip))
    (stations : List Station) (currentTimeFilter : Int) : List Station :=
  let departures :=
    rollupLen (fun d => d.start_station_id)
      (filterByMinute departuresByMinute currentTimeFilter)
  let arrivals :=
    rollupLen (fun d => d.end_station_id)
      (filterByMinute arrivalsByMinute currentTimeFilter)
  stations.map (fun station =>
    let arrivalsCount := getOrZero arrivals station.short_name
    let departuresCount := getOrZero departures station.short_name
    { station with
      arrivals := arrivalsCount
      departures := departuresCount
      totalTraffic := arrivalsCount + departuresCount })

/-- Embeds `computeStationTraffic(currentTime)` of `src/unnamed/part_000`: filter the
flat trip list once, roll it up by start id and by end id, and return fresh
records `{...station, departures, arrivals, totalTraffic}`. -/
def computeStationTrafficPart (trips : List Trip) (stations : List Station)
    (currentTime : Int) : List Station :=
  let activeTrips := filterTripsByTime trips currentTime
  let departures := rollupLen (fun d => d.start_station_id) activeTrips
  let arrivals := rollupLen (fun d => d.end_station_id) activeTrips
  stations.map (fun station =>
    let dep := getOrZero departures station.short_name
    let arr := getOrZero arrivals station.short_name
    { station with
      departures := dep
      arrivals := arr
      totalTraffic := dep + arr })

/-- The `src/map.js` aggregation together with its heap effect on the
caller's array: `station.arrivals = ...; return station` inside `.map`
mutates each input record in place and returns that same record, so after
the call the contents of the caller's `stations` array coincide with the
returned list. First component: returned list; second component: the input
records' contents after the call. -/
def computeStationTrafficMapRun (departuresByMinute arrivalsByMinute : List (List Trip))
    (stations : List Station) (currentTimeFilter : Int) :
    List Station × List Station :=
  (computeStationTrafficMap departuresByMinute arrivalsByMinute stations currentTimeFilter,
   computeStationTrafficMap departuresByMinute arrivalsByMinute stations currentTimeFilter)

/-- The `src/unnamed/part_000` aggregation together with its heap effect:
`{...station, ...}` builds fresh records, so after the call the input
records are unchanged. First component: returned list; second component:
the input records' contents after the call. -/
def computeStationTrafficPartRun (trips : List Trip) (stations : List Station)
    (currentTime : Int) : List Station × List Station :=
  (computeStationTrafficPart trips stations currentTime, stations)

/-- Embeds `const stationFlow = d3.scaleQuantize().domain([0, 1]).range([0, 0.5, 1])`.
A d3 quantize scale over `[0, 1]` with three range values places thresholds at
`1/3` and `2/3` and returns the range value indexed by the number of thresholds
`≤ x` (no clamping is needed beyond the bisection itself). -/
def stationFlow (x : ℚ) : ℚ :=
  if x < 1 / 3 then 0 else if x < 2 / 3 then 1 / 2 else 1

/-- The argument the code feeds to `stationFlow`:
`d.totalTraffic > 0 ? d.departures / d.totalTraffic : 0`. -/
def departureFraction (s : Station) : ℚ :=
  if s.totalTraffic > 0 then (s.departures : ℚ) / (s.totalTraffic : ℚ) else 0

/-- The flow level handed to the rendering layer
(`stationFlow(d.totalTraffic > 0 ? d.departures / d.totalTraffic : 0)`). -/
def flowLevel (s : Station) : ℚ := stationFlow (departureFraction s)

/-- The mutable state of `radiusScale`: domain `[d0, d1]` and range `[r0, r1]`. -/
structure SqrtScale where
  d0 : ℚ
  d1 : ℚ
  r0 : ℚ
  r1 : ℚ
deriving DecidableEq

/-- Embeds `const radiusScale = d3.scaleSqrt().range([0, 25])`: a d3 power scale
starts with the default domain `[0, 1]`. -/
def initialRadiusScale : SqrtScale := { d0 := 0, d1 := 1, r0 := 0, r1 := 25 }

/-- Embeds `d3.max(stations, (d) => d.totalTraffic)` over a non-empty station list
(for the empty list d3 returns `undefined`, which never occurs in the claims
considered here). -/
def maxTotalTraffic (stations : List Station) : Nat :=
  stations.foldl (fun acc s => Nat.max acc s.totalTraffic) 0

/-- The load-time scale setup of `src/map.js`:
`stations = computeStationTraffic(stationsData, -1)` followed by
`radiusScale.domain([0, d3.max(stations, (d) => d.totalTraffic)])`. -/
def loadPipelineScale (departuresByMinute arrivalsByMinute : List (List Trip))
    (stationsData : List Station) : SqrtScale :=
  let stations := computeStationTrafficMap departuresByMinute arrivalsByMinute stationsData (-1)
  { initialRadiusScale with d0 := 0, d1 := (maxTotalTraffic stations : ℚ) }

/-- Embeds `updateScatterPlot(currentTimeFilter)` restricted to its data-flow on the
station set and the scale object: it recomputes the filtered stations and
switches the scale's range (`[0, 25]` unfiltered, `[3, 50]` filtered); the
scale's domain is not touched. -/
def updateScatterPlotModel (departuresByMinute arrivalsByMinute : List (List Trip))
    (stationsData : List Station) (scale : SqrtScale) (currentTimeFilter : Int) :
    List Station × SqrtScale :=
  let filteredStations :=
    computeStationTrafficMap departuresByMinute arrivalsByMinute stationsData currentTimeFilter
  (filteredStations,
    if currentTimeFilter = -1 then { scale with r0 := 0, r1 := 25 }
    else { scale with r0 := 3, r1 := 50 })

/-- Evaluation of a d3 continuous scale (d3-scale `continuous.js`): with
transformed domain endpoints `a = t d0` and `t d1`, `normalize` is the linear
map `x ↦ (x - a) / (t d1 - a)` when the transformed domain is non-degenerate
and the constant `1/2` otherwise, composed with `interpolateNumber(r0, r1)`.
`t` is the domain transform (for `scaleSqrt` the sign-preserving square root;
it is kept abstract here — the degenerate branch never depends on it). -/
def d3ContinuousApply (t : ℚ → ℚ) (d0 d1 r0 r1 x : ℚ) : ℚ :=
  let a := t d0
  let b := t d1 - a
  if b = 0 then r0 + (1 / 2) * (r1 - r0)
  else r0 + ((t x - a) / b) * (r1 - r0)

/-- Evaluation of `radiusScale(x)` for a given scale state and domain transform. -/
def radiusApply (t : ℚ → ℚ) (s : SqrtScale) (x : ℚ) : ℚ :=
  d3ContinuousApply t s.d0 s.d1 s.r0 s.r1 x

/-- Specification-side counter: the number of trips in `trips` whose `key`
field equals `id`. -/
def countMatching (key : Trip → String) (trips : List Trip) (id : String) : Nat :=
  (trips.filter (fun t => key t = id)).length

/-- Specification-side description of the query window: the bucket indices
from `minMinute = (m - 60 + 1440) mod 1440` walking circularly forward to
`maxMinute = (m + 60) mod 1440`, in ascending traversal order
(`[minMinute, 1440)` then `[0, maxMinute)` when the window wraps). -/
def windowIndices (minute : Nat) : List Nat :=
  let minMinute := (minute + 1380) % 1440
  let maxMinute := (minute + 60) % 1440
  if minMinute > maxMinute then
    List.range' minMinute (1440 - minMinute) ++ List.range maxMinute
  else
    List.range' minMinute (maxMinute - minMinute)

/-! ## Helper lemmas about bucketing -/

theorem minutesSinceMidnight_lt_of_valid (d : DateTime) (h : d.valid) :
    minutesSinceMidnight d < 1440 := by
  obtain ⟨h1, h2⟩ := h
  unfold minutesSinceMidnight
  omega

theorem setAppend_length (tab : List (List Trip)) (i : Nat) (t : Trip) :
    (setAppend tab i t).length = tab.length := by
  induction tab generalizing i with
  | nil => rfl
  | cons b bs ih =>
    cases i with
    | zero => rfl
    | succ j => simp [setAppend, ih]

theorem bucketFold_length (idx : Trip → Nat) (trips : List Trip) :
    ∀ tab : List (List Trip), (bucketFold idx trips tab).length = tab.length := by
  induction trips with
  | nil => intro tab; rfl
  | cons t ts ih =>
    intro tab
    have h := ih (setAppend tab (idx t) t)
    simpa [bucketFold, setAppend_length] using h

theorem setAppend_getD (tab : List (List Trip)) (i : Nat) (t : Trip) :
    ∀ j : Nat, (setAppend tab i t).getD j [] =
      if j = i ∧ j < tab.length then tab.getD j [] ++ [t] else tab.getD j [] := by
  induction tab generalizing i with
  | nil => intro j; simp [setAppend]
  | cons b bs ih =>
    intro j
    cases i with
    | zero =>
      cases j with
      | zero => simp [setAppend]
      | succ k => simp [setAppend]
    | succ m =>
      cases j with
      | zero => simp [setAppend]
      | succ k =>
        have h := ih m k
        simp only [setAppend, List.getD_cons_succ, List.length_cons]
        rw [h]
        by_cases hk : k = m ∧ k < bs.length
        · rw [if_pos hk, if_pos ⟨by omega, by omega⟩]
        · rw [if_neg hk, if_neg (by omega)]

theorem bucketFold_getD (idx : Trip → Nat) (trips : List Trip) :
    ∀ tab : List (List Trip), (∀ t ∈ trips, idx t < tab.length) → ∀ j : Nat,
      (bucketFold idx trips tab).getD j [] =
        tab.getD j [] ++ trips.filter (fun t => idx t = j) := by
  induction trips with
  | nil => intro tab _ j; simp [bucketFold]
  | cons t ts ih =>
    intro tab h j
    have hlen : idx t < tab.length := h t (List.mem_cons_self t ts)
    have hts : ∀ u ∈ ts, idx u < (setAppend tab (idx t) t).length := by
      intro u hu
      rw [setAppend_length]
      exact h u (List.mem_cons_of_mem t hu)
    have step : bucketFold idx (t :: ts) tab = bucketFold idx ts (setAppend tab (idx t) t) := rfl
    rw [step, ih (setAppend tab (idx t) t) hts j, setAppend_getD]
    by_cases hj : idx t = j
    · rw [if_pos ⟨hj.symm, by omega⟩]
      simp [List.filter_cons, hj]
    · rw [if_neg (by intro hc; exact hj hc.1.symm)]
      simp [List.filter_cons, hj]

theorem setAppend_sumLens (tab : List (List Trip)) (i : Nat) (t : Trip)
    (h : i < tab.length) : sumLens (setAppend tab i t) = sumLens tab + 1 := by
  induction tab generalizing i with
  | nil => simp at h
  | cons b bs ih =>
    cases i with
    | zero => simp [setAppend, sumLens]; omega
    | succ j =>
      have h2 : j < bs.length := by simpa using h
      have h3 := ih j h2
      simp only [setAppend, sumLens, List.map_cons, List.sum_cons] at h3 ⊢
      omega

theorem bucketFold_sumLens (idx : Trip → Nat) (trips : List Trip) :
    ∀ tab : List (List Trip), (∀ t ∈ trips, idx t < tab.length) →
      sumLens (bucketFold idx trips tab) = sumLens tab + trips.length := by
  induction trips with
  | nil => intro tab _; simp [bucketFold]
  | cons t ts ih =>
    intro tab h
    have hlen : idx t < tab.length := h t (List.mem_cons_self t ts)
    have hts : ∀ u ∈ ts, idx u < (setAppend tab (idx t) t).length := by
      intro u hu
      rw [setAppend_length]
      exact h u (List.mem_cons_of_mem t hu)
    have step : bucketFold idx (t :: ts) tab = bucketFold idx ts (setAppend tab (idx t) t) := rfl
    rw [step, ih (setAppend tab (idx t) t) hts, setAppend_sumLens tab (idx t) t hlen]
    simp
    omega

theorem setAppend_flatten_perm (tab : List (List Trip)) (i : Nat) (t : Trip)
    (h : i < tab.length) :
    (setAppend tab i t).flatten.Perm (tab.flatten ++ [t]) := by
  induction tab generalizing i with
  | nil => simp at h
  | cons b bs ih =>
    cases i with
    | zero =>
      simp only [setAppend, List.flatten_cons, List.append_assoc]
      exact List.Perm.append_left b List.perm_append_comm
    | succ j =>
      have h2 : j < bs.length := by simpa using h
      simp only [setAppend, List.flatten_cons, List.append_assoc]
      exact List.Perm.append_left b (ih j h2)

theorem bucketFold_flatten_perm (idx : Trip → Nat) (trips : List Trip) :
    ∀ tab : List (List Trip), (∀ t ∈ trips, idx t < tab.length) →
      (bucketFold idx trips tab).flatten.Perm (tab.flatten ++ trips) := by
  induction trips with
  | nil => intro tab _; simp [bucketFold]
  | cons t ts ih =>
    intro tab h
    have hlen : idx t < tab.length := h t (List.mem_cons_self t ts)
    have hts : ∀ u ∈ ts, idx u < (setAppend tab (idx t) t).length := by
      intro u hu
      rw [setAppend_length]
      exact h u (List.mem_cons_of_mem t hu)
    have step : bucketFold idx (t :: ts) tab = bucketFold idx ts (setAppend tab (idx t) t) := rfl
    rw [step]
    have h1 := ih (setAppend tab (idx t) t) hts
    have h2 := (setAppend_flatten_perm tab (idx t) t hlen).append_right ts
    refine h1.trans (h2.trans ?_)
    rw [List.append_assoc]
    exact List.Perm.append_left tab.flatten (by simp)

theorem replicate_nil_length (n : Nat) :
    (List.replicate n ([] : List Trip)).length = n := by
  induction n with
  | zero => rfl
  | succ k ih => simp [List.replicate_succ, ih]

theorem replicate_nil_getD (n : Nat) :
    ∀ j : Nat, (List.replicate n ([] : List Trip)).getD j [] = [] := by
  induction n with
  | zero => intro j; rfl
  | succ k ih =>
    intro j
    cases j with
    | zero => rfl
    | succ m => simp [List.replicate_succ, ih m]

theorem replicate_nil_flatten (n : Nat) :
    (List.replicate n ([] : List Trip)).flatten = [] := by
  induction n with
  | zero => rfl
  | succ k ih => simp [List.replicate_succ, ih]

theorem replicate_nil_sumLens (n : Nat) :
    sumLens (List.replicate n ([] : List Trip)) = 0 := by
  induction n with
  | zero => rfl
  | succ k ih =>
    simp only [sumLens, List.replicate_succ, List.map_cons, List.sum_cons,
      List.length_nil, Nat.zero_add] at ih ⊢
    exact ih

theorem emptyTable_length : emptyTable.length = 1440 :=
  replicate_nil_length 1440

theorem emptyTable_getD (j : Nat) : emptyTable.getD j [] = [] :=
  replicate_nil_getD 1440 j

theorem emptyTable_flatten : emptyTable.flatten = [] :=
  replicate_nil_flatten 1440

theorem emptyTable_sumLens : sumLens emptyTable = 0 :=
  replicate_nil_sumLens 1440

/-! ## Helper lemmas about the rollup counting model -/

theorem getOrZero_incr (m : List (String × Nat)) (k id : String) :
    getOrZero (incr m k) id =
      if k = id then getOrZero m id + 1 else getOrZero m id := by
  induction m with
  | nil =>
    by_cases h : k = id <;> simp [incr, getOrZero, h]
  | cons p rest ih =>
    obtain ⟨k0, n⟩ := p
    by_cases h0 : k0 = k
    · subst h0
      by_cases h : k0 = id <;> simp [incr, getOrZero, h]
    · by_cases h : k0 = id
      · subst h
        have hki : ¬ k = k0 := fun hc => h0 hc.symm
        simp [incr, getOrZero, h0, hki]
      · simp [incr, getOrZero, h0, h, ih]

theorem getOrZero_foldl_incr (key : Trip → String) (trips : List Trip) :
    ∀ (m : List (String × Nat)) (id : String),
      getOrZero (trips.foldl (fun acc t => incr acc (key t)) m) id =
        getOrZero m id + countMatching key trips id := by
  induction trips with
  | nil => intro m id; simp [countMatching]
  | cons t ts ih =>
    intro m id
    have step : (t :: ts).foldl (fun acc u => incr acc (key u)) m =
        ts.foldl (fun acc u => incr acc (key u)) (incr m (key t)) := rfl
    rw [step, ih (incr m (key t)) id, getOrZero_incr]
    by_cases h : key t = id
    · simp [countMatching, List.filter_cons, h]
      omega
    · simp [countMatching, List.filter_cons, h]

/-- The observable content of the `d3.rollup` model: looking up `id` in the
rolled-up counts (defaulting to `0`) yields exactly the number of trips whose
key equals `id`. -/
theorem getOrZero_rollupLen (key : Trip → String) (trips : List Trip) (id : String) :
    getOrZero (rollupLen key trips) id = countMatching key trips id := by
  have h := getOrZero_foldl_incr key trips [] id
  simpa [rollupLen, getOrZero] using h

theorem countMatching_perm (key : Trip → String) {l1 l2 : List Trip}
    (h : l1.Perm l2) (id : String) :
    countMatching key l1 id = countMatching key l2 id := by
  unfold countMatching
  exact (h.filter (fun t => decide (key t = id))).length_eq

/-! ## Helper lemmas about slicing and the query window -/

theorem range'_map_getD (l : List (List Trip)) :
    ∀ (n a : Nat), a + n ≤ l.length →
      (List.range' a n).map (fun i => l.getD i []) = (l.drop a).take n := by
  intro n
  induction n with
  | zero => intro a _; simp
  | succ k ih =>
    intro a h
    have ha : a < l.length := by omega
    rw [List.range'_succ, List.map_cons, ih (a + 1) (by omega),
      List.getD_eq_getElem l [] ha, List.drop_eq_getElem_cons ha]
    rfl

/-! ## Concrete demonstration data (used by witnesses and counterexamples) -/

/-- A trip departing at 23:50 (bucket minute 1430), arriving 23:55. -/
def tripL : Trip :=
  { start_station_id := "A", end_station_id := "B"
    started_at := { hours := 23, minutes := 50 }
    ended_at := { hours := 23, minutes := 55 } }

/-- A trip departing at 0:50 (bucket minute 50), arriving 1:00. -/
def tripE : Trip :=
  { start_station_id := "A", end_station_id := "B"
    started_at := { hours := 0, minutes := 50 }
    ended_at := { hours := 1, minutes := 0 } }

/-- A trip departing at 3:20 (bucket minute 200), arriving 3:30. -/
def tripM : Trip :=
  { start_station_id := "A", end_station_id := "B"
    started_at := { hours := 3, minutes := 20 }
    ended_at := { hours := 3, minutes := 30 } }

def demoTrips : List Trip := [tripL, tripE, tripM]

def demoDepTable : List (List Trip) := bucketDepartures demoTrips

/-! ## Claim C4: bucket completeness -/

/-- C4: for every (well-formed) trip set, the sum of bucket lengths over the
1440 slots of the departures table equals the number of trips, likewise for
the arrivals table, and bucket `i` of each table holds exactly the trips
whose relevant minute is `i` (so each trip appears exactly once per table,
at index `minutesSinceMidnight started_at` resp. `minutesSinceMidnight
ended_at`). -/
theorem bucket_completeness (trips : List Trip) (h : ∀ t ∈ trips, t.valid) :
    sumLens (bucketDepartures trips) = trips.length ∧
    sumLens (bucketArrivals trips) = trips.length ∧
    (∀ i : Nat, (bucketDepartures trips).getD i [] =
      trips.filter (fun t => minutesSinceMidnight t.started_at = i)) ∧
    (∀ i : Nat, (bucketArrivals trips).getD i [] =
      trips.filter (fun t => minutesSinceMidnight t.ended_at = i)) := by
  have hd : ∀ t ∈ trips, minutesSinceMidnight t.started_at < emptyTable.length := by
    intro t ht
    rw [emptyTable_length]
    exact minutesSinceMidnight_lt_of_valid _ (h t ht).1
  have ha : ∀ t ∈ trips, minutesSinceMidnight t.ended_at < emptyTable.length := by
    intro t ht
    rw [emptyTable_length]
    exact minutesSinceMidnight_lt_of_valid _ (h t ht).2
  refine ⟨?_, ?_, ?_, ?_⟩
  · rw [bucketDepartures, bucketFold_sumLens _ _ _ hd, emptyTable_sumLens]
    omega
  · rw [bucketArrivals, bucketFold_sumLens _ _ _ ha, emptyTable_sumLens]
    omega
  · intro i
    rw [bucketDepartures, bucketFold_getD _ _ _ hd i, emptyTable_getD]
    simp
  · intro i
    rw [bucketArrivals, bucketFold_getD _ _ _ ha i, emptyTable_getD]
    simp

/-- Witness for C4 at an explicit three-trip input. -/
theorem bucket_completeness_witness :
    (∀ t ∈ demoTrips, t.valid) ∧
    (sumLens (bucketDepartures demoTrips) = demoTrips.length ∧
     sumLens (bucketArrivals demoTrips) = demoTrips.length ∧
     (∀ i : Nat, (bucketDepartures demoTrips).getD i [] =
       demoTrips.filter (fun t => minutesSinceMidnight t.started_at = i)) ∧
     (∀ i : Nat, (bucketArrivals demoTrips).getD i [] =
       demoTrips.filter (fun t => minutesSinceMidnight t.ended_at = i))) :=
  ⟨by decide, bucket_completeness demoTrips (by decide)⟩

/-! ## Claim C2: the sentinel returns everything -/

/-- C2: querying a bucket table with the sentinel `-1` returns the
concatenation of all 1440 buckets, a multiset equal to the original trip
set; querying the empty bucket table with the sentinel returns `[]`. -/
theorem query_sentinel_unfiltered (trips : List Trip) (h : ∀ t ∈ trips, t.valid) :
    (filterByMinute (bucketDepartures trips) (-1)).Perm trips ∧
    (filterByMinute (bucketArrivals trips) (-1)).Perm trips ∧
    filterByMinute (bucketDepartures trips) (-1) = (bucketDepartures trips).flatten ∧
    filterByMinute emptyTable (-1) = [] := by
  have e : ∀ tab : List (List Trip), filterByMinute tab (-1) = tab.flatten := by
    intro tab
    unfold filterByMinute
    simp
  have hd : ∀ t ∈ trips, minutesSinceMidnight t.started_at < emptyTable.length := by
    intro t ht
    rw [emptyTable_length]
    exact minutesSinceMidnight_lt_of_valid _ (h t ht).1
  have ha : ∀ t ∈ trips, minutesSinceMidnight t.ended_at < emptyTable.length := by
    intro t ht
    rw [emptyTable_length]
    exact minutesSinceMidnight_lt_of_valid _ (h t ht).2
  refine ⟨?_, ?_, e _, ?_⟩
  · rw [e]
    have hp := bucketFold_flatten_perm _ trips emptyTable hd
    rw [emptyTable_flatten] at hp
    simpa [bucketDepartures] using hp
  · rw [e]
    have hp := bucketFold_flatten_perm _ trips emptyTable ha
    rw [emptyTable_flatten] at hp
    simpa [bucketArrivals] using hp
  · rw [e, emptyTable_flatten]

/-- Witness for C2 at an explicit three-trip input. -/
theorem query_sentinel_unfiltered_witness :
    (∀ t ∈ demoTrips, t.valid) ∧
    ((filterByMinute (bucketDepartures demoTrips) (-1)).Perm demoTrips ∧
     (filterByMinute (bucketArrivals demoTrips) (-1)).Perm demoTrips ∧
     filterByMinute (bucketDepartures demoTrips) (-1) =
       (bucketDepartures demoTrips).flatten ∧
     filterByMinute emptyTable (-1) = []) :=
  ⟨by decide, query_sentinel_unfiltered demoTrips (by decide)⟩

/-! ## Claim C1: windowed query correctness -/

/-- C1: for every 1440-slot bucket table and every non-sentinel minute
`m ∈ [0, 1439]`, `filterByMinute` returns exactly the concatenation, in
ascending traversal order with insertion order preserved inside each bucket,
of the buckets whose index lies in the circular half-open window from
`minMinute = (m - 60 + 1440) mod 1440` forward to
`maxMinute = (m + 60) mod 1440` (i.e. `[minMinute, 1440) ++ [0, maxMinute)`
when the window wraps past midnight). -/
theorem filterByMinute_window_correct (table : List (List Trip))
    (hlen : table.length = 1440) (m : Nat) (hm : m < 1440) :
    filterByMinute table (m : Int) =
      ((windowIndices m).map (fun i => table.getD i [])).flatten := by
  have hm1 : ¬ ((m : Int) = -1) := by omega
  have e1 : (((m : Int) - 60 + 1440) % 1440).toNat = (m + 1380) % 1440 := by omega
  have e2 : (((m : Int) + 60) % 1440).toNat = (m + 60) % 1440 := by omega
  have hb1 : (m + 1380) % 1440 < 1440 := Nat.mod_lt _ (by omega)
  have hb2 : (m + 60) % 1440 < 1440 := Nat.mod_lt _ (by omega)
  unfold filterByMinute windowIndices
  rw [if_neg hm1]
  simp only [e1, e2]
  by_cases hgt : (m + 1380) % 1440 > (m + 60) % 1440
  · rw [if_pos hgt, if_pos hgt, List.map_append, List.flatten_append]
    have p1 : (List.range' ((m + 1380) % 1440) (1440 - (m + 1380) % 1440)).map
        (fun i => table.getD i []) = table.drop ((m + 1380) % 1440) := by
      rw [range'_map_getD table (1440 - (m + 1380) % 1440) ((m + 1380) % 1440) (by omega)]
      exact List.take_of_length_le (by rw [List.length_drop]; omega)
    have p2 : (List.range ((m + 60) % 1440)).map (fun i => table.getD i []) =
        table.take ((m + 60) % 1440) := by
      rw [List.range_eq_range', range'_map_getD table ((m + 60) % 1440) 0 (by omega)]
      rw [List.drop_zero]
    rw [p1, p2, List.flatten_append]
  · rw [if_neg hgt, if_neg hgt]
    rw [range'_map_getD table ((m + 60) % 1440 - (m + 1380) % 1440) ((m + 1380) % 1440)
      (by omega)]

/-- Witness for C1: the wrapping window at `m = 30` over a concrete bucket
table containing trips at bucket minutes 1430, 50 and 200; the first two are
returned and the third is not. -/
theorem filterByMinute_window_correct_witness :
    demoDepTable.length = 1440 ∧ 30 < 1440 ∧
    filterByMinute demoDepTable ((30 : Nat) : Int) =
      ((windowIndices 30).map (fun i => demoDepTable.getD i [])).flatten ∧
    tripL ∈ filterByMinute demoDepTable ((30 : Nat) : Int) ∧
    tripE ∈ filterByMinute demoDepTable ((30 : Nat) : Int) ∧
    tripM ∉ filterByMinute demoDepTable ((30 : Nat) : Int) :=
  ⟨by decide, by decide,
   filterByMinute_window_correct demoDepTable (by decide) 30 (by decide),
   by decide, by decide, by decide⟩

/-! ## Claim C6: window width -/

/-- C6 counterexample: at `m = 500` the window covers the 120 distinct
bucket indices `[440, 560)`, not 121. -/
theorem window_width_121_cex :
    (windowIndices 500).length = 120 ∧ (windowIndices 500).Nodup ∧
    ¬ ((windowIndices 500).length = 121) := by
  refine ⟨by decide, by decide, by decide⟩

/-- C6 amended: for every non-sentinel minute `m ∈ [0, 1439]`, the circular
half-open query window from `(m - 60 + 1440) mod 1440` to `(m + 60) mod 1440`
covers exactly 120 distinct bucket indices. -/
theorem window_width_120 (m : Nat) (_hm : m < 1440) :
    (windowIndices m).length = 120 ∧ (windowIndices m).Nodup := by
  unfold windowIndices
  by_cases hgt : (m + 1380) % 1440 > (m + 60) % 1440
  · rw [if_pos hgt]
    constructor
    · rw [List.length_append, List.length_range', List.length_range]
      omega
    · refine List.Nodup.append (List.nodup_range' _ _) (List.nodup_range _) ?_
      intro x hx1 hx2
      rw [List.mem_range'_1] at hx1
      rw [List.mem_range] at hx2
      omega
  · rw [if_neg hgt]
    exact ⟨by rw [List.length_range']; omega, List.nodup_range' _ _⟩

/-- Witness for the amended C6 at the wrapping minute `m = 30`. -/
theorem window_width_120_witness :
    30 < 1440 ∧ ((windowIndices 30).length = 120 ∧ (windowIndices 30).Nodup) :=
  ⟨by decide, window_width_120 30 (by decide)⟩

/-! ## Claim C3: station traffic aggregation -/

def stationA : Station :=
  { short_name := "A", lon := 0, lat := 0, arrivals := 0, departures := 0, totalTraffic := 0 }

def stationB : Station :=
  { short_name := "B", lon := 1, lat := 1, arrivals := 0, departures := 0, totalTraffic := 0 }

def demoArrTable : List (List Trip) := bucketArrivals demoTrips

/-- C3: every station produced by the aggregation carries `departures` equal
to the number of selected departure trips whose `start_station_id` equals the
station's `short_name`, `arrivals` likewise over `end_station_id`, and
`totalTraffic = arrivals + departures`; in particular a station with zero
matching trips gets all-zero fields rather than an error. -/
theorem computeStationTraffic_counts (dep arr : List (List Trip))
    (stations : List Station) (f : Int) (st : Station)
    (hst : st ∈ computeStationTrafficMap dep arr stations f) :
    st.departures =
      countMatching (fun t => t.start_station_id) (filterByMinute dep f) st.short_name ∧
    st.arrivals =
      countMatching (fun t => t.end_station_id) (filterByMinute arr f) st.short_name ∧
    st.totalTraffic = st.arrivals + st.departures ∧
    (countMatching (fun t => t.start_station_id) (filterByMinute dep f) st.short_name = 0 →
     countMatching (fun t => t.end_station_id) (filterByMinute arr f) st.short_name = 0 →
     st.arrivals = 0 ∧ st.departures = 0 ∧ st.totalTraffic = 0) := by
  unfold computeStationTrafficMap at hst
  simp only [List.mem_map] at hst
  obtain ⟨s0, _hs0, heq⟩ := hst
  subst heq
  simp only [getOrZero_rollupLen]
  refine ⟨trivial, trivial, trivial, ?_⟩
  intro h1 h2
  exact ⟨h2, h1, by rw [h1, h2]⟩

/-- The record that the aggregation over the demo trips (unfiltered)
produces for station "B": three arrivals, no departures. -/
def stationBagg : Station :=
  { short_name := "B", lon := 1, lat := 1, arrivals := 3, departures := 0
    totalTraffic := 3 }

/-- The record that the aggregation over the demo trips (unfiltered)
produces for station "A": three departures, no arrivals. -/
def stationAagg : Station :=
  { short_name := "A", lon := 0, lat := 0, arrivals := 0, departures := 3
    totalTraffic := 3 }

/-- Witness for C3: a two-station list aggregated over the demo trips,
unfiltered; station "B" has only arrivals, and the count equations hold. -/
theorem computeStationTraffic_counts_witness :
    stationBagg ∈
      computeStationTrafficMap demoDepTable demoArrTable [stationA, stationB] (-1) ∧
    (stationBagg.departures =
      countMatching (fun t => t.start_station_id)
        (filterByMinute demoDepTable (-1)) stationBagg.short_name ∧
     stationBagg.arrivals =
      countMatching (fun t => t.end_station_id)
        (filterByMinute demoArrTable (-1)) stationBagg.short_name ∧
     stationBagg.totalTraffic = stationBagg.arrivals + stationBagg.departures ∧
     (countMatching (fun t => t.start_station_id)
        (filterByMinute demoDepTable (-1)) stationBagg.short_name = 0 →
      countMatching (fun t => t.end_station_id)
        (filterByMinute demoArrTable (-1)) stationBagg.short_name = 0 →
      stationBagg.arrivals = 0 ∧ stationBagg.departures = 0 ∧
        stationBagg.totalTraffic = 0)) :=
  ⟨by decide,
   computeStationTraffic_counts demoDepTable demoArrTable [stationA, stationB] (-1)
     stationBagg (by decide)⟩

/-! ## Claim C8: flow-ratio quantization -/

/-- C8: for every station produced by the aggregation, the flow level fed to
rendering is the quantization of the departure fraction (defined as 0 when
`totalTraffic = 0`, avoiding division by zero) and lies in `{0, 1/2, 1}`;
the fraction itself always lies in `[0, 1]`, so no non-finite value arises. -/
theorem flow_level_quantized (dep arr : List (List Trip)) (stations : List Station)
    (f : Int) (s : Station) (hs : s ∈ computeStationTrafficMap dep arr stations f) :
    (flowLevel s = 0 ∨ flowLevel s = 1 / 2 ∨ flowLevel s = 1) ∧
    0 ≤ departureFraction s ∧ departureFraction s ≤ 1 ∧
    (s.totalTraffic = 0 → departureFraction s = 0) := by
  have hdep : s.departures ≤ s.totalTraffic := by
    unfold computeStationTrafficMap at hs
    simp only [List.mem_map] at hs
    obtain ⟨s0, _hs0, heq⟩ := hs
    subst heq
    simp
  refine ⟨?_, ?_, ?_, ?_⟩
  · unfold flowLevel stationFlow
    by_cases h1 : departureFraction s < 1 / 3
    · exact Or.inl (if_pos h1)
    · rw [if_neg h1]
      by_cases h2 : departureFraction s < 2 / 3
      · exact Or.inr (Or.inl (if_pos h2))
      · exact Or.inr (Or.inr (if_neg h2))
  · unfold departureFraction
    by_cases h : s.totalTraffic > 0
    · rw [if_pos h]
      positivity
    · rw [if_neg h]
  · unfold departureFraction
    by_cases h : s.totalTraffic > 0
    · rw [if_pos h]
      rw [div_le_one (by exact_mod_cast h)]
      exact_mod_cast hdep
    · rw [if_neg h]
      norm_num
  · intro h0
    unfold departureFraction
    rw [if_neg (by omega)]

/-- Witness for C8: the aggregated station "A" over the demo trips has
`departures = 3`, `totalTraffic = 3`, ratio `1`, flow level `1`. -/
theorem flow_level_quantized_witness :
    stationAagg ∈
      computeStationTrafficMap demoDepTable demoArrTable [stationA, stationB] (-1) ∧
    ((flowLevel stationAagg = 0 ∨ flowLevel stationAagg = 1 / 2 ∨
      flowLevel stationAagg = 1) ∧
     0 ≤ departureFraction stationAagg ∧ departureFraction stationAagg ≤ 1 ∧
     (stationAagg.totalTraffic = 0 → departureFraction stationAagg = 0)) :=
  ⟨by decide,
   flow_level_quantized demoDepTable demoArrTable [stationA, stationB] (-1)
     stationAagg (by decide)⟩

/-! ## Claim C7: mutation of input station records -/

/-- A station holding stale derived fields from an earlier filter state. -/
def stationStale : Station :=
  { short_name := "A", lon := 0, lat := 0, arrivals := 1, departures := 2
    totalTraffic := 7 }

/-- C7 counterexample: running the `src/map.js` aggregation over an empty
trip table leaves the caller's input record changed (its stale
`arrivals = 1, departures = 2, totalTraffic = 7` are overwritten with
zeros), so the input station records are not left unchanged. -/
theorem aggregation_mutates_input_cex :
    (computeStationTrafficMapRun emptyTable emptyTable [stationStale] (-1)).2 ≠
      [stationStale] := by decide

/-- Mapping a function over a list that moves at least one member is not the
identity on that list. -/
theorem map_ne_of_mem_ne {α : Type} (g : α → α) (l : List α) (s : α)
    (hs : s ∈ l) (hg : g s ≠ s) : l.map g ≠ l := by
  induction l with
  | nil => cases hs
  | cons a l ih =>
    intro hc
    rw [List.map_cons] at hc
    injection hc with h1 h2
    rcases List.mem_cons.mp hs with h | h
    · subst h
      exact hg h1
    · exact ih h h2

/-- C7 amended: the `src/unnamed/part_000` aggregation leaves the caller's
input records unchanged (it returns fresh records), while the `src/map.js`
aggregation mutates in place: after the call the input records coincide with
the returned records, and they differ from their previous contents whenever
some station's newly computed `totalTraffic` differs from its stored one. -/
theorem aggregation_mutation_behavior (dep arr : List (List Trip)) (trips : List Trip)
    (stations : List Station) (f : Int) (s : Station) (hs : s ∈ stations)
    (hdiff : s.totalTraffic ≠
      getOrZero (rollupLen (fun d => d.end_station_id) (filterByMinute arr f))
        s.short_name +
      getOrZero (rollupLen (fun d => d.start_station_id) (filterByMinute dep f))
        s.short_name) :
    (computeStationTrafficPartRun trips stations f).2 = stations ∧
    (computeStationTrafficMapRun dep arr stations f).2 =
      computeStationTrafficMap dep arr stations f ∧
    (computeStationTrafficMapRun dep arr stations f).2 ≠ stations := by
  refine ⟨rfl, rfl, ?_⟩
  show (computeStationTrafficMap dep arr stations f) ≠ stations
  unfold computeStationTrafficMap
  apply map_ne_of_mem_ne _ _ s hs
  intro hc
  exact hdiff ((congrArg Station.totalTraffic hc).symm)

/-- Witness for the amended C7: the stale station record is rewritten by the
map.js variant and kept intact by the part_000 variant. -/
theorem aggregation_mutation_behavior_witness :
    stationStale ∈ [stationStale] ∧
    stationStale.totalTraffic ≠
      getOrZero (rollupLen (fun d => d.end_station_id)
        (filterByMinute emptyTable (-1))) stationStale.short_name +
      getOrZero (rollupLen (fun d => d.start_station_id)
        (filterByMinute emptyTable (-1))) stationStale.short_name ∧
    ((computeStationTrafficPartRun [] [stationStale] (-1)).2 = [stationStale] ∧
     (computeStationTrafficMapRun emptyTable emptyTable [stationStale] (-1)).2 =
       computeStationTrafficMap emptyTable emptyTable [stationStale] (-1) ∧
     (computeStationTrafficMapRun emptyTable emptyTable [stationStale] (-1)).2 ≠
       [stationStale]) :=
  ⟨by decide, by decide,
   aggregation_mutation_behavior emptyTable emptyTable [] [stationStale] (-1)
     stationStale (by decide) (by decide)⟩

/-! ## Claim C5: radius-scale domain across filter changes -/

def demoLoadedScale : SqrtScale :=
  loadPipelineScale demoDepTable demoArrTable [stationA, stationB]

/-- C5 counterexample: with the demo trips (all outside the 10:00 window),
the unfiltered maximum total traffic is 3, the filtered (minute 600) maximum
is 0, yet after `updateScatterPlot(600)` the scale's domain upper bound is
still 3 — not the current filtered maximum. -/
theorem radius_domain_stale_cex :
    maxTotalTraffic
      ((updateScatterPlotModel demoDepTable demoArrTable [stationA, stationB]
        demoLoadedScale 600).1) = 0 ∧
    ((updateScatterPlotModel demoDepTable demoArrTable [stationA, stationB]
        demoLoadedScale 600).2).d1 = 3 ∧
    ¬ (((updateScatterPlotModel demoDepTable demoArrTable [stationA, stationB]
        demoLoadedScale 600).2).d1 =
      ((maxTotalTraffic ((updateScatterPlotModel demoDepTable demoArrTable
        [stationA, stationB] demoLoadedScale 600).1) : Nat) : ℚ)) := by
  refine ⟨by decide, by decide, by decide⟩

/-- C5 amended: `updateScatterPlot` never touches the radius scale's domain —
it only switches the range to `[0, 25]` (sentinel) or `[3, 50]` (filtered) —
so after any filter change the domain upper bound is still the value set once
at load time, the unfiltered maximum total traffic. -/
theorem radius_domain_fixed_at_load (dep arr : List (List Trip))
    (stationsData : List Station) (scale : SqrtScale) (f : Int) :
    ((updateScatterPlotModel dep arr stationsData scale f).2).d0 = scale.d0 ∧
    ((updateScatterPlotModel dep arr stationsData scale f).2).d1 = scale.d1 ∧
    ((updateScatterPlotModel dep arr stationsData scale f).2).r0 =
      (if f = -1 then 0 else 3) ∧
    ((updateScatterPlotModel dep arr stationsData scale f).2).r1 =
      (if f = -1 then 25 else 50) ∧
    ((updateScatterPlotModel dep arr stationsData
        (loadPipelineScale dep arr stationsData) f).2).d1 =
      ((maxTotalTraffic (computeStationTrafficMap dep arr stationsData (-1)) : Nat) : ℚ) := by
  unfold updateScatterPlotModel loadPipelineScale initialRadiusScale
  by_cases h : f = -1 <;> simp [h]

/-! ## Claim C9: degenerate radius-scale domain -/

theorem maxTotalTraffic_zero (l : List Station) (h : ∀ s ∈ l, s.totalTraffic = 0) :
    maxTotalTraffic l = 0 := by
  unfold maxTotalTraffic
  have key : ∀ (l2 : List Station) (a : Nat), (∀ s ∈ l2, s.totalTraffic = 0) →
      l2.foldl (fun acc s => Nat.max acc s.totalTraffic) a = a := by
    intro l2
    induction l2 with
    | nil => intro a _; rfl
    | cons s l2 ih =>
      intro a h2
      have h0 : s.totalTraffic = 0 := h2 s (List.mem_cons_self s l2)
      have step : (s :: l2).foldl (fun acc u => Nat.max acc u.totalTraffic) a =
          l2.foldl (fun acc u => Nat.max acc u.totalTraffic) (Nat.max a s.totalTraffic) := rfl
      have hmz : Nat.max a 0 = a := Nat.max_eq_left (Nat.zero_le a)
      rw [step, h0, hmz]
      exact ih a (fun u hu => h2 u (List.mem_cons_of_mem s hu))
  exact key l 0 h

/-- C9 counterexample: with a single station of zero traffic, the loaded
radius scale has domain `[0, 0]` and range `[0, 25]`; evaluating it (here
with the identity transform — the degenerate branch of a d3 continuous scale
never applies the transform to the input) yields the range midpoint
`25/2 = 12.5`, not the range minimum `0`. -/
theorem radius_degenerate_not_min_cex :
    radiusApply (fun q => q) (loadPipelineScale emptyTable emptyTable [stationA]) 0 =
      25 / 2 ∧
    (loadPipelineScale emptyTable emptyTable [stationA]).r0 = 0 ∧
    ¬ (radiusApply (fun q => q) (loadPipelineScale emptyTable emptyTable [stationA]) 0 =
      (loadPipelineScale emptyTable emptyTable [stationA]).r0) := by
  have hmax : maxTotalTraffic
      (computeStationTrafficMap emptyTable emptyTable [stationA] (-1)) = 0 := by decide
  have h1 : radiusApply (fun q => q)
      (loadPipelineScale emptyTable emptyTable [stationA]) 0 = 25 / 2 := by
    unfold radiusApply loadPipelineScale initialRadiusScale d3ContinuousApply
    simp only [hmax]
    norm_num
  have h2 : (loadPipelineScale emptyTable emptyTable [stationA]).r0 = 0 := rfl
  refine ⟨h1, h2, ?_⟩
  rw [h1, h2]
  norm_num

/-- C9 amended: when every aggregated station has `totalTraffic = 0`, the
loaded radius scale's domain is `[0, 0]`; evaluating the scale at any input
and under any domain transform does not fail and returns the constant range
midpoint `25/2` (d3's degenerate-domain behavior), not the range minimum. -/
theorem radius_scale_degenerate (t : ℚ → ℚ) (dep arr : List (List Trip))
    (stationsData : List Station)
    (h : ∀ s ∈ computeStationTrafficMap dep arr stationsData (-1), s.totalTraffic = 0)
    (x : ℚ) :
    radiusApply t (loadPipelineScale dep arr stationsData) x = 25 / 2 := by
  have hmax : maxTotalTraffic (computeStationTrafficMap dep arr stationsData (-1)) = 0 :=
    maxTotalTraffic_zero _ h
  unfold radiusApply loadPipelineScale initialRadiusScale d3ContinuousApply
  simp only [hmax]
  norm_num

/-- Witness for the amended C9 at a concrete all-zero station list. -/
theorem radius_scale_degenerate_witness :
    (∀ s ∈ computeStationTrafficMap emptyTable emptyTable [stationA] (-1),
      s.totalTraffic = 0) ∧
    radiusApply (fun q => q + 1)
      (loadPipelineScale emptyTable emptyTable [stationA]) 0 = 25 / 2 :=
  ⟨by decide,
   radius_scale_degenerate (fun q => q + 1) emptyTable emptyTable [stationA]
     (by decide) 0⟩

/-! ## Claim C10: observational equivalence of the two variants -/

/-- C10 counterexample: at filter minute 30, the bucket-table variant counts
the 23:50 trip (bucket 1430 lies in the wrapped window `[1410, 1440)`), while
the linear-scan variant tests the unwrapped interval `[-30, 90]` and drops
it, so the two aggregations disagree on a concrete input. -/
theorem variants_not_equivalent_cex :
    computeStationTrafficMap (bucketDepartures [tripL]) (bucketArrivals [tripL])
      [stationA, stationB] 30 ≠
    computeStationTrafficPart [tripL] [stationA, stationB] 30 := by
  have h1 : computeStationTrafficMap (bucketDepartures [tripL]) (bucketArrivals [tripL])
      [stationA, stationB] 30 =
      [{ stationA with arrivals := 0, departures := 1, totalTraffic := 1 },
       { stationB with arrivals := 1, departures := 0, totalTraffic := 1 }] := by decide
  have h2 : computeStationTrafficPart [tripL] [stationA, stationB] 30 =
      [stationA, stationB] := by decide
  rw [h1, h2]
  decide

/-- C10 amended: the two variants agree on the unfiltered (sentinel `-1`)
query: for every well-formed trip set and every station list, the bucket-table
aggregation of `src/map.js` and the linear-scan aggregation of
`src/unnamed/part_000` assign every station equal `arrivals`, `departures`
and `totalTraffic`; at non-sentinel minutes they diverge (window wrapping,
inclusive versus half-open bounds, and per-table versus either-endpoint
filtering). -/
theorem variants_agree_unfiltered (trips : List Trip) (h : ∀ t ∈ trips, t.valid)
    (stations : List Station) :
    computeStationTrafficMap (bucketDepartures trips) (bucketArrivals trips)
      stations (-1) =
    computeStationTrafficPart trips stations (-1) := by
  have hd : ∀ t ∈ trips, minutesSinceMidnight t.started_at < emptyTable.length := by
    intro t ht
    rw [emptyTable_length]
    exact minutesSinceMidnight_lt_of_valid _ (h t ht).1
  have ha : ∀ t ∈ trips, minutesSinceMidnight t.ended_at < emptyTable.length := by
    intro t ht
    rw [emptyTable_length]
    exact minutesSinceMidnight_lt_of_valid _ (h t ht).2
  have pd : (bucketDepartures trips).flatten.Perm trips := by
    have hp := bucketFold_flatten_perm _ trips emptyTable hd
    rw [emptyTable_flatten] at hp
    simpa [bucketDepartures] using hp
  have pa : (bucketArrivals trips).flatten.Perm trips := by
    have hp := bucketFold_flatten_perm _ trips emptyTable ha
    rw [emptyTable_flatten] at hp
    simpa [bucketArrivals] using hp
  have ed : filterByMinute (bucketDepartures trips) (-1) = (bucketDepartures trips).flatten := by
    unfold filterByMinute
    simp
  have ea : filterByMinute (bucketArrivals trips) (-1) = (bucketArrivals trips).flatten := by
    unfold filterByMinute
    simp
  have et : filterTripsByTime trips (-1) = trips := by
    unfold filterTripsByTime
    simp
  unfold computeStationTrafficMap computeStationTrafficPart
  simp only [ed, ea, et]
  refine List.map_congr_left ?_
  intro station _
  have c1 : getOrZero (rollupLen (fun d => d.start_station_id)
      (bucketDepartures trips).flatten) station.short_name =
      getOrZero (rollupLen (fun d => d.start_station_id) trips) station.short_name := by
    rw [getOrZero_rollupLen, getOrZero_rollupLen]
    exact countMatching_perm _ pd _
  have c2 : getOrZero (rollupLen (fun d => d.end_station_id)
      (bucketArrivals trips).flatten) station.short_name =
      getOrZero (rollupLen (fun d => d.end_station_id) trips) station.short_name := by
    rw [getOrZero_rollupLen, getOrZero_rollupLen]
    exact countMatching_perm _ pa _
  simp only [c1, c2]
  rw [Nat.add_comm]

/-- Witness for the amended C10 at the demo trip set and a two-station list. -/
theorem variants_agree_unfiltered_witness :
    (∀ t ∈ demoTrips, t.valid) ∧
    computeStationTrafficMap (bucketDepartures demoTrips) (bucketArrivals demoTrips)
      [stationA, stationB] (-1) =
    computeStationTrafficPart demoTrips [stationA, stationB] (-1) :=
  ⟨by decide, variants_agree_unfiltered demoTrips (by decide) [stationA, stationB]⟩
